import Mathlib

/-!
Verification development for the DayByDay planner (src/app.py).

The core under verification is the free-text plan parser and the task
reconciler: `parse_plan_to_tasks`, `normalize_tasks`, `assign_missing_ids`
(src/app.py lines 257-321), the planner page delete/add handlers
(lines 614-632), the chat page plan-import merge (lines 727-748) and the
plan-generation flow `generate_8day_plan` (lines 326-372).

Python strings are embedded as Lean `String`/`List Char`; the ASCII
behaviour of `str.strip`, `str.splitlines`, `\s`, `\w` and `\d` is
modelled (exotic Unicode whitespace and line separators are outside the
embedding). Python `int` is embedded as `Int`, `None`-able ids as
`Option Int`.
-/

namespace DayByDay

/-- ASCII fragment of the Python whitespace class `\s` / `str.strip()`:
space, tab, newline, carriage return, vertical tab, form feed. -/
def pyIsSpace (c : Char) : Bool :=
  c = ' ' || c = '\t' || c = '\n' || c = '\r' || c = '\x0b' || c = '\x0c'

/-- Remove trailing characters satisfying `pyIsSpace` (right half of
Python `str.strip()`). -/
def stripRight (cs : List Char) : List Char :=
  (cs.reverse.dropWhile pyIsSpace).reverse

/-- Python `str.strip()` on a character list: drop leading and trailing
whitespace. -/
def stripList (cs : List Char) : List Char :=
  stripRight (cs.dropWhile pyIsSpace)

/-- Python `str.strip()` on strings. -/
def pyStrip (s : String) : String :=
  ⟨stripList s.data⟩

/-- Characters of Python `line.lstrip("-•0123456789.). \t")` set
(src/app.py line 277): hyphen, bullet, digits, period, closing
parenthesis, space, tab. -/
def bulletChar (c : Char) : Bool :=
  c = '-' || c = '•' || c.isDigit || c = '.' || c = ')' || c = ' ' || c = '\t'

/-- ASCII line terminators of Python `str.splitlines()`. -/
def isLineBreak (c : Char) : Bool :=
  c = '\n' || c = '\r' || c = '\x0b' || c = '\x0c'

/-- Worker for `pySplitlines`: `acc` holds the current line reversed. -/
def splitlinesGo (acc : List Char) : List Char → List (List Char)
  | [] => if acc.isEmpty then [] else [acc.reverse]
  | '\r' :: '\n' :: rest => acc.reverse :: splitlinesGo [] rest
  | c :: rest =>
    if isLineBreak c then acc.reverse :: splitlinesGo [] rest
    else splitlinesGo (c :: acc) rest

/-- Python `str.splitlines()`: split on line terminators (`\r\n` counts
as one), with no trailing empty line. -/
def pySplitlines (cs : List Char) : List (List Char) :=
  splitlinesGo [] cs

/-- Case-insensitive match of the literal word "Day" at the head of the
list; returns the remainder on success. -/
def dayWord (cs : List Char) : Option (List Char) :=
  match cs with
  | c1 :: c2 :: c3 :: rest =>
    if c1.toLower = 'd' && c2.toLower = 'a' && c3.toLower = 'y' then some rest
    else none
  | _ => none

/-- The zero-width lookahead of `re.split(r"(?=Day\s*\d+[:\-])", ...,
flags=IGNORECASE)` (src/app.py line 265): true iff the regex
`Day\s*\d+[:-]` matches at the head of `cs`. -/
def dayMarkerHere (cs : List Char) : Bool :=
  match dayWord cs with
  | none => false
  | some rest =>
    let rest2 := rest.dropWhile pyIsSpace
    let digits := rest2.takeWhile Char.isDigit
    let rest3 := rest2.dropWhile Char.isDigit
    !digits.isEmpty &&
      (match rest3 with
       | ':' :: _ => true
       | '-' :: _ => true
       | _ => false)

/-- Worker for `splitBlocks`: `acc` holds the current block reversed; a
new block starts at every position where the lookahead matches. -/
def goSplit (acc : List Char) : List Char → List (List Char)
  | [] => [acc.reverse]
  | c :: rest =>
    if dayMarkerHere (c :: rest) then acc.reverse :: goSplit [c] rest
    else goSplit (c :: acc) rest

/-- `re.split(r"(?=Day\s*\d+[:\-])", plan_text, flags=IGNORECASE)`
(src/app.py line 265): cut the text before every day-marker position. -/
def splitBlocks (cs : List Char) : List (List Char) :=
  goSplit [] cs

/-- `re.match(fr"Day\s*{i}\b", b, flags=IGNORECASE)` (src/app.py
line 269) as a Boolean: the block starts with "Day", optional whitespace,
the single digit of `i` (the loop ranges over 1..8), and a word boundary. -/
def matchesDay (i : Nat) (cs : List Char) : Bool :=
  match dayWord cs with
  | none => false
  | some rest =>
    match rest.dropWhile pyIsSpace with
    | [] => false
    | d :: rest3 =>
      d = Nat.digitChar i &&
        (match rest3 with
         | [] => true
         | c :: _ => !(c.isAlphanum || c = '_'))

/-- One match of the `re.sub(fr"Day\s*{i}[:\-]?", "", ...)` pattern
(src/app.py line 275) at the head of `cs`; returns the remainder after
the matched span (note: no word boundary in this pattern). -/
def afterMarker (i : Nat) (cs : List Char) : Option (List Char) :=
  match dayWord cs with
  | none => none
  | some rest =>
    match rest.dropWhile pyIsSpace with
    | [] => none
    | d :: rest3 =>
      if d = Nat.digitChar i then
        some (match rest3 with
              | ':' :: r => r
              | '-' :: r => r
              | r => r)
      else none

/-- Fuelled worker for `removeDayMarkers`; every step consumes at least
one character, so fuel equal to the length of the list suffices. -/
def removeGo (i : Nat) : Nat → List Char → List Char
  | _, [] => []
  | 0, rest => rest
  | fuel + 1, c :: rest =>
    match afterMarker i (c :: rest) with
    | some r => removeGo i fuel r
    | none => c :: removeGo i fuel rest

/-- `re.sub(fr"Day\s*{i}[:\-]?", "", block, flags=IGNORECASE)`
(src/app.py line 275): delete every non-overlapping occurrence of the
day-`i` marker. -/
def removeDayMarkers (i : Nat) (cs : List Char) : List Char :=
  removeGo i cs.length cs

/-- A task record (src/app.py: dicts with keys "id", "text", "done");
`id = none` embeds Python `None`. -/
structure Task where
  id : Option Int
  text : String
  done : Bool
deriving DecidableEq, Repr

/-- The per-line transformation `line.lstrip("-•0123456789.). \t").strip()`
(src/app.py line 277). -/
def taskLine (line : List Char) : String :=
  ⟨stripList (line.dropWhile bulletChar)⟩

/-- Lines 275-280 of src/app.py applied to a matched block: remove the
day-`i` marker, strip, split into lines, keep the lines that are
non-blank before decoration stripping, and strip from each kept line
the leading bullet/numbering decoration. -/
def blockLines (i : Nat) (block : List Char) : List String :=
  ((pySplitlines (stripList (removeDayMarkers i block))).filter
      (fun line => !(stripList line).isEmpty)).map taskLine

/-- The sequential id assignment of src/app.py lines 285-289 on one day:
each task receives the counter value, the counter increments. -/
def numberDay : List Task → Int → List Task × Int
  | [], n => ([], n)
  | t :: ts, n =>
    let p := numberDay ts (n + 1)
    (⟨some n, t.text, t.done⟩ :: p.1, p.2)

/-- The sequential id assignment of src/app.py lines 285-289 over the
days in order. -/
def numberTasks : List (List Task) → Int → List (List Task)
  | [], _ => []
  | d :: ds, n =>
    let p := numberDay d n
    p.1 :: numberTasks ds p.2

/-- `parse_plan_to_tasks` (src/app.py lines 257-291): empty input yields
8 empty days; otherwise split into blocks at day markers, populate day
`i` (1..8) from the first block matching `Day i`, and finally assign
sequential ids 0,1,2,... in day order. -/
def parse_plan_to_tasks (plan_text : String) : List (List Task) :=
  if plan_text = "" then List.replicate 8 []
  else
    numberTasks
      ((List.range 8).map (fun d =>
        match (splitBlocks plan_text.data).find? (matchesDay (d + 1)) with
        | none => []
        | some b => (blockLines (d + 1) b).map (fun s => ⟨none, s, false⟩)))
      0

/-- A well-typed raw entry of a stored day's task list, as seen by
`normalize_tasks` (src/app.py lines 293-304): a plain string, a dict
whose "text" value is a string (with optional "id"/"done" keys), or any
other JSON value. The full raw shape — in which the "text" value of a
dict may also be absent or a present non-string, the case where line 301
raises — is `RawEntry` below; `normalize_tasks_py_well_typed` proves
this type is exactly the well-typed fragment of the full model. -/
inductive RawTask where
  | ofString (s : String)
  | record (id : Option Int) (text : String) (done : Bool)
  | other
deriving DecidableEq, Repr

/-- View a task record as a raw entry (a dict with the three keys). -/
def taskToRaw (t : Task) : RawTask :=
  RawTask.record t.id t.text t.done

/-- `normalize_tasks` (src/app.py lines 293-304) restricted to
well-typed entries: a string becomes a fresh undone task, a dict is
coerced field-wise (done is booleanized), anything else is skipped. On
this fragment the source raises nothing; the full fallible model over
`RawEntry` is `normalize_tasks_py`, and the two agree here
(`normalize_tasks_py_well_typed`). -/
def normalize_tasks : List RawTask → List Task
  | [] => []
  | RawTask.ofString s :: rest => ⟨none, pyStrip s, false⟩ :: normalize_tasks rest
  | RawTask.record i s d :: rest => ⟨i, pyStrip s, d⟩ :: normalize_tasks rest
  | RawTask.other :: rest => normalize_tasks rest

/-- The "text" value of a stored dict entry as Python sees it: the key
may be absent (`t.get("text", "")` then yields ""), hold a string, or
hold a present non-string JSON value such as null or a number — on which
`.strip()` raises AttributeError (src/app.py line 301). -/
inductive PyText where
  | absent
  | str (s : String)
  | nonStr
deriving DecidableEq, Repr

/-- A raw entry of a stored day's task list with the full shape the
source can encounter (days are read back from persisted JSON): a plain
string, a dict whose "text" value may be absent, a string, or a present
non-string, or any other JSON value. -/
inductive RawEntry where
  | ofString (s : String)
  | record (id : Option Int) (text : PyText) (done : Bool)
  | other
deriving DecidableEq, Repr

/-- Well-typed raw tasks viewed as raw entries (a string "text" value). -/
def rawTaskToEntry : RawTask → RawEntry
  | RawTask.ofString s => RawEntry.ofString s
  | RawTask.record i s d => RawEntry.record i (PyText.str s) d
  | RawTask.other => RawEntry.other

/-- `normalize_tasks` (src/app.py lines 293-304) over the full raw
shape: a string becomes a fresh undone task; for a dict,
`t.get("text", "").strip()` (line 301) uses the default only when the
"text" key is absent — a present non-string value reaches `.strip()` and
raises AttributeError, embedded as `none` (the exception aborts the
whole call, so no output list escapes); other entries are skipped. -/
def normalize_tasks_py : List RawEntry → Option (List Task)
  | [] => some []
  | RawEntry.ofString s :: rest =>
    (normalize_tasks_py rest).map (fun ts => ⟨none, pyStrip s, false⟩ :: ts)
  | RawEntry.record i PyText.absent d :: rest =>
    (normalize_tasks_py rest).map (fun ts => ⟨i, pyStrip (""), d⟩ :: ts)
  | RawEntry.record i (PyText.str s) d :: rest =>
    (normalize_tasks_py rest).map (fun ts => ⟨i, pyStrip s, d⟩ :: ts)
  | RawEntry.record _ PyText.nonStr _ :: _ => none
  | RawEntry.other :: rest => normalize_tasks_py rest

/-- A dict entry on which src/app.py line 301 raises: the "text" key is
present with a non-string value. -/
def badEntry : RawEntry → Bool
  | RawEntry.record _ PyText.nonStr _ => true
  | _ => false

/-- Entries that produce a record: strings and dicts. -/
def keptEntry : RawEntry → Bool
  | RawEntry.ofString _ => true
  | RawEntry.record _ _ _ => true
  | RawEntry.other => false

/-- Field-wise normalization of one raw entry on which line 301 does not
raise; `none` marks skipped entries. -/
def normOnePy : RawEntry → Option Task
  | RawEntry.ofString s => some ⟨none, pyStrip s, false⟩
  | RawEntry.record i PyText.absent d => some ⟨i, pyStrip (""), d⟩
  | RawEntry.record i (PyText.str s) d => some ⟨i, pyStrip s, d⟩
  | RawEntry.record _ PyText.nonStr _ => none
  | RawEntry.other => none

/-- The already-assigned id collection of src/app.py lines 307-311 (also
lines 627-629 and 733-735): all non-null ids, in day order then
within-day order. -/
def collectIds (tasks_by_day : List (List Task)) : List Int :=
  (tasks_by_day.map (fun day => day.filterMap Task.id)).flatten

/-- `next_id = max(all_ids) + 1 if all_ids else 0` (src/app.py line 313,
also lines 630 and 736). -/
def nextId (tasks_by_day : List (List Task)) : Int :=
  match collectIds tasks_by_day with
  | [] => 0
  | x :: xs => xs.foldl max x + 1

/-- The inner loop of `assign_missing_ids` on one day (src/app.py lines
315-319): a task with a null id receives the counter value. -/
def assignDay : List Task → Int → List Task × Int
  | [], n => ([], n)
  | t :: ts, n =>
    match t.id with
    | some _ =>
      let p := assignDay ts n
      (t :: p.1, p.2)
    | none =>
      let p := assignDay ts (n + 1)
      (⟨some n, t.text, t.done⟩ :: p.1, p.2)

/-- The outer loop of `assign_missing_ids` over the days in order. -/
def assignGo : List (List Task) → Int → List (List Task)
  | [], _ => []
  | d :: ds, n =>
    let p := assignDay d n
    p.1 :: assignGo ds p.2

/-- `assign_missing_ids` (src/app.py lines 306-321): collect assigned
ids, start the counter at max+1 (or 0), and fill every null id walking
days in order. -/
def assign_missing_ids (tasks_by_day : List (List Task)) : List (List Task) :=
  assignGo tasks_by_day (nextId tasks_by_day)

/-- The delete handler of src/app.py lines 614-617: `tasks[i].pop(j)`.
`none` embeds the `IndexError` Python raises on an invalid day or task
index. -/
def deleteTask (tasks : List (List Task)) (d j : Nat) : Option (List (List Task)) :=
  match tasks.get? d with
  | none => none
  | some day =>
    if j < day.length then some (tasks.set d (day.eraseIdx j))
    else none

/-- The add handler of src/app.py lines 625-632: blank text is rejected
(no-op); otherwise a task with id `max(all ids)+1` (or 0) and stripped
text is appended to day `d`. -/
def addTask (tasks : List (List Task)) (d : Nat) (txt : String) : List (List Task) :=
  if pyStrip txt = "" then tasks
  else tasks.set d (tasks.getD d [] ++ [⟨some (nextId tasks), pyStrip txt, false⟩])

/-- The appended records of one day of the chat-page merge (src/app.py
lines 738-742): each parsed task contributes `id := counter`,
`text := t["text"]`, `done := False`, and the counter increments. -/
def tagTasks : List Task → Int → List Task × Int
  | [], n => ([], n)
  | t :: ts, n =>
    let p := tagTasks ts (n + 1)
    (⟨some n, t.text, false⟩ :: p.1, p.2)

/-- The merge loop `for i in range(8): for t in parsed[i]:
existing[i].append(...)` (src/app.py lines 738-742), rendered
structurally over the day lists; it agrees with the source loop whenever
both structures satisfy the 8-day arity invariant (Python raises
`IndexError` otherwise). -/
def mergeAppend : List (List Task) → List (List Task) → Int → List (List Task)
  | [], _, _ => []
  | e :: es, [], _ => e :: es
  | e :: es, p :: ps, nid =>
    let t := tagTasks p nid
    (e ++ t.1) :: mergeAppend es ps t.2

/-- The plan-import merge of src/app.py lines 727-748: run
`assign_missing_ids` over the existing structure, compute the next id
from it, then append the parsed-day tasks with fresh sequential ids. -/
def mergeParsedPlan (existing parsed : List (List Task)) : List (List Task) :=
  mergeAppend (assign_missing_ids existing) parsed (nextId (assign_missing_ids existing))

/-- The project record built by `generate_8day_plan` (src/app.py lines
357-364); timestamps are outside the embedding. -/
structure Project where
  title : String
  description : String
  tasks : List (List Task)
  raw_plan : String
deriving DecidableEq, Repr

/-- The prompt f-string of src/app.py lines 330-348. -/
def promptFor (title desc : String) : String :=
  "\nYou are DayBot, an expert project planner.\nCreate an 8-day detailed project plan.\n\nTitle: "
    ++ title ++ "\nDescription: " ++ desc
    ++ "\n\nStrict format:\n\nDay 1:\n- Task 1\n- Task 2\n\nDay 2:\n- Task 1\n...\nDay 8:\n- Task 1\n"

/-- Outcome of `generate_8day_plan`: the returned (ok, message, project)
triple; `project = none` embeds Python `None` (nothing built or
saved — the save on line 367 only happens when a project is built). -/
structure GenOutcome where
  ok : Bool
  message : String
  project : Option Project
deriving DecidableEq, Repr

/-- `generate_8day_plan` (src/app.py lines 326-372) with the AI
collaborator `call_gemini_text` passed in as a function returning the
(ok, text) pair. -/
def generate_8day_plan (title desc : String) (call_gemini : String → Bool × String) :
    GenOutcome :=
  if pyStrip title = "" then ⟨false, "Project title is required.", none⟩
  else
    let res := call_gemini (promptFor title desc)
    if res.1 = false then ⟨false, res.2, none⟩
    else
      let parsed := assign_missing_ids (parse_plan_to_tasks res.2)
      ⟨true, "8-day plan generated!",
        some ⟨pyStrip title, pyStrip desc, parsed, pyStrip res.2⟩⟩

/-! ### Helper lemmas on the string model -/

theorem dropWhile_idem {α : Type} (p : α → Bool) (l : List α) :
    (l.dropWhile p).dropWhile p = l.dropWhile p := by
  induction l with
  | nil => rfl
  | cons c cs ih =>
    by_cases h : p c
    · simp [List.dropWhile_cons, h, ih]
    · simp [List.dropWhile_cons, h]

theorem dropWhile_head_false {α : Type} {p : α → Bool} {l : List α} {c : α} {cs : List α}
    (h : l.dropWhile p = c :: cs) : p c = false := by
  induction l with
  | nil => simp at h
  | cons a as ih =>
    rw [List.dropWhile_cons] at h
    by_cases ha : p a
    · rw [if_pos ha] at h
      exact ih h
    · rw [if_neg ha] at h
      cases h
      simpa using ha

theorem stripRight_idem (l : List Char) : stripRight (stripRight l) = stripRight l := by
  unfold stripRight
  rw [List.reverse_reverse, dropWhile_idem]

theorem stripRight_eq_append (l : List Char) :
    ∃ t, l = stripRight l ++ t := by
  refine ⟨(l.reverse.takeWhile pyIsSpace).reverse, ?_⟩
  unfold stripRight
  rw [← List.reverse_append, List.takeWhile_append_dropWhile, List.reverse_reverse]

theorem stripList_idem (l : List Char) : stripList (stripList l) = stripList l := by
  have hdrop : (stripList l).dropWhile pyIsSpace = stripList l := by
    cases hZ : stripList l with
    | nil => rfl
    | cons c cs =>
      unfold stripList at hZ
      obtain ⟨t, ht⟩ := stripRight_eq_append (l.dropWhile pyIsSpace)
      rw [hZ] at ht
      have hc : pyIsSpace c = false := by
        exact dropWhile_head_false (l := l)
          (by rw [ht]; rfl)
      rw [List.dropWhile_cons, if_neg (by simp [hc])]
  show stripRight ((stripList l).dropWhile pyIsSpace) = stripList l
  rw [hdrop]
  show stripRight (stripRight (l.dropWhile pyIsSpace)) = stripList l
  rw [stripRight_idem]
  rfl

theorem pyStrip_idem (s : String) : pyStrip (pyStrip s) = pyStrip s := by
  unfold pyStrip
  exact congrArg String.mk (stripList_idem s.data)

/-! ### Helper lemmas on id bookkeeping -/

theorem le_foldl_max (xs : List Int) (a : Int) : a ≤ xs.foldl max a := by
  induction xs generalizing a with
  | nil => exact le_refl a
  | cons y ys ih =>
    calc a ≤ max a y := le_max_left a y
    _ ≤ ys.foldl max (max a y) := ih (max a y)

theorem mem_le_foldl_max (xs : List Int) (a x : Int) (h : x ∈ xs) :
    x ≤ xs.foldl max a := by
  induction xs generalizing a with
  | nil => cases h
  | cons y ys ih =>
    rcases List.mem_cons.1 h with rfl | hx
    · calc x ≤ max a x := le_max_right a x
      _ ≤ ys.foldl max (max a x) := le_foldl_max ys (max a x)
    · exact ih (max a y) hx

/-- The freshly computed id is distinct from every id already present. -/
theorem nextId_not_mem (t : List (List Task)) : nextId t ∉ collectIds t := by
  unfold nextId
  cases h : collectIds t with
  | nil => simp
  | cons x xs =>
    show xs.foldl max x + 1 ∉ x :: xs
    intro hmem
    rcases List.mem_cons.1 hmem with heq | hx
    · have := le_foldl_max xs x
      omega
    · have := mem_le_foldl_max xs x _ hx
      omega

/-! ### Helper lemmas on the sequential id numbering of the parser -/

theorem numberDay_fst_text (day : List Task) (n : Int) :
    ((numberDay day n).1).map Task.text = day.map Task.text := by
  induction day generalizing n with
  | nil => rfl
  | cons t ts ih => simp [numberDay, ih]

theorem numberDay_fst_done (day : List Task) (n : Int) :
    ((numberDay day n).1).map Task.done = day.map Task.done := by
  induction day generalizing n with
  | nil => rfl
  | cons t ts ih => simp [numberDay, ih]

theorem numberDay_snd (day : List Task) (n : Int) :
    (numberDay day n).2 = n + day.length := by
  induction day generalizing n with
  | nil => simp [numberDay]
  | cons t ts ih =>
    simp only [numberDay, ih, List.length_cons]
    omega

theorem numberDay_fst_ids (day : List Task) (n : Int) :
    ((numberDay day n).1).map Task.id
      = (List.range day.length).map (fun (k : Nat) => some (n + (k : Int))) := by
  induction day generalizing n with
  | nil => rfl
  | cons t ts ih =>
    simp only [numberDay, List.map_cons, ih, List.length_cons,
      List.range_succ_eq_map, List.map_map]
    congr 1
    · norm_num
    · congr 1
      funext k
      show some (n + 1 + (k : Int)) = some (n + ((Nat.succ k : Nat) : Int))
      congr 1
      push_cast
      ring

theorem numberTasks_length (ds : List (List Task)) (n : Int) :
    (numberTasks ds n).length = ds.length := by
  induction ds generalizing n with
  | nil => rfl
  | cons day rest ih => simp [numberTasks, ih]

theorem numberTasks_getD_text (ds : List (List Task)) (n : Int) (d : Nat) :
    ((numberTasks ds n).getD d []).map Task.text = (ds.getD d []).map Task.text := by
  induction ds generalizing n d with
  | nil => simp [numberTasks]
  | cons day rest ih =>
    cases d with
    | zero =>
      simp only [numberTasks, List.getD_cons_zero]
      exact numberDay_fst_text day n
    | succ d =>
      simp only [numberTasks, List.getD_cons_succ]
      exact ih _ d

theorem numberTasks_flatten_done (ds : List (List Task)) (n : Int) :
    ((numberTasks ds n).flatten).map Task.done = ds.flatten.map Task.done := by
  induction ds generalizing n with
  | nil => rfl
  | cons day rest ih =>
    simp [numberTasks, numberDay_fst_done, ih]

theorem numberTasks_flatten_text (ds : List (List Task)) (n : Int) :
    ((numberTasks ds n).flatten).map Task.text = ds.flatten.map Task.text := by
  induction ds generalizing n with
  | nil => rfl
  | cons day rest ih =>
    simp [numberTasks, numberDay_fst_text, ih]

theorem numberTasks_flatten_length (ds : List (List Task)) (n : Int) :
    ((numberTasks ds n).flatten).length = ds.flatten.length := by
  have h := congrArg List.length (numberTasks_flatten_text ds n)
  rwa [List.length_map, List.length_map] at h

theorem numberTasks_flatten_ids (ds : List (List Task)) (n : Int) :
    ((numberTasks ds n).flatten).map Task.id
      = (List.range ds.flatten.length).map (fun (k : Nat) => some (n + (k : Int))) := by
  induction ds generalizing n with
  | nil => rfl
  | cons day rest ih =>
    simp only [numberTasks, List.flatten_cons, List.map_append, numberDay_fst_ids,
      numberDay_snd, ih, List.length_append, List.range_add, List.map_map]
    congr 1
    congr 1
    funext k
    show some (n + (day.length : Int) + (k : Int)) = some (n + ((day.length + k : Nat) : Int))
    congr 1
    push_cast
    ring

/-! ### Helper lemmas on `assign_missing_ids` -/

/-- How `assign_missing_ids` relates an output task to the input task in
the same position: text and done are untouched and an already-assigned
id is kept. -/
def keepsTask (a b : Task) : Prop :=
  a.text = b.text ∧ a.done = b.done ∧ ∀ v, b.id = some v → a.id = some v

theorem assignDay_forall2 (day : List Task) (n : Int) :
    List.Forall₂ keepsTask (assignDay day n).1 day := by
  induction day generalizing n with
  | nil => exact List.Forall₂.nil
  | cons t ts ih =>
    cases h : t.id with
    | some v =>
      simp only [assignDay, h]
      exact List.Forall₂.cons ⟨rfl, rfl, fun _ hv => hv⟩ (ih n)
    | none =>
      simp only [assignDay, h]
      refine List.Forall₂.cons ⟨rfl, rfl, fun v hv => ?_⟩ (ih (n + 1))
      rw [h] at hv
      cases hv

theorem assignGo_getD_forall2 (t : List (List Task)) (n : Int) (d : Nat) :
    List.Forall₂ keepsTask ((assignGo t n).getD d []) (t.getD d []) := by
  induction t generalizing n d with
  | nil => exact List.Forall₂.nil
  | cons day rest ih =>
    cases d with
    | zero => simpa [assignGo] using assignDay_forall2 day n
    | succ d => simpa [assignGo] using ih _ d

theorem assignGo_length (t : List (List Task)) (n : Int) :
    (assignGo t n).length = t.length := by
  induction t generalizing n with
  | nil => rfl
  | cons day rest ih => simp [assignGo, ih]

theorem assignDay_all_some (day : List Task) (n : Int) :
    ∀ x ∈ (assignDay day n).1, x.id.isSome := by
  induction day generalizing n with
  | nil => intro x hx; cases hx
  | cons t ts ih =>
    cases h : t.id with
    | some v =>
      simp only [assignDay, h]
      intro x hx
      rcases List.mem_cons.1 hx with rfl | hx'
      · simp [h]
      · exact ih n x hx'
    | none =>
      simp only [assignDay, h]
      intro x hx
      rcases List.mem_cons.1 hx with rfl | hx'
      · rfl
      · exact ih (n + 1) x hx'

theorem assignGo_all_some (t : List (List Task)) (n : Int) :
    ∀ day' ∈ assignGo t n, ∀ x ∈ day', x.id.isSome := by
  induction t generalizing n with
  | nil => intro day' h; cases h
  | cons day rest ih =>
    intro day' h
    rcases List.mem_cons.1 h with rfl | h'
    · exact assignDay_all_some day n
    · exact ih _ day' h'

theorem assignDay_noop (day : List Task) (n : Int)
    (h : ∀ x ∈ day, x.id.isSome) : assignDay day n = (day, n) := by
  induction day generalizing n with
  | nil => rfl
  | cons t ts ih =>
    have ht := h t (List.mem_cons_self t ts)
    cases hid : t.id with
    | none => rw [hid] at ht; cases ht
    | some v =>
      simp only [assignDay, hid]
      rw [ih n (fun x hx => h x (List.mem_cons_of_mem t hx))]

theorem assignGo_noop (t : List (List Task)) (n : Int)
    (h : ∀ day' ∈ t, ∀ x ∈ day', x.id.isSome) : assignGo t n = t := by
  induction t generalizing n with
  | nil => rfl
  | cons day rest ih =>
    simp only [assignGo, assignDay_noop day n (h day (List.mem_cons_self day rest))]
    rw [ih n (fun day' hd => h day' (List.mem_cons_of_mem day hd))]

theorem assign_missing_ids_all_some (t : List (List Task)) :
    ∀ day' ∈ assign_missing_ids t, ∀ x ∈ day', x.id.isSome :=
  assignGo_all_some t (nextId t)

theorem assign_missing_ids_length (t : List (List Task)) :
    (assign_missing_ids t).length = t.length :=
  assignGo_length t (nextId t)

/-! ### Helper lemmas on the merge loop -/

theorem tagTasks_fst_text (ts : List Task) (n : Int) :
    ((tagTasks ts n).1).map Task.text = ts.map Task.text := by
  induction ts generalizing n with
  | nil => rfl
  | cons t ts ih => simp [tagTasks, ih]

theorem tagTasks_fst_done (ts : List Task) (n : Int) :
    ∀ x ∈ (tagTasks ts n).1, x.done = false := by
  induction ts generalizing n with
  | nil => intro x hx; cases hx
  | cons t ts ih =>
    intro x hx
    rcases List.mem_cons.1 hx with rfl | hx'
    · rfl
    · exact ih _ x hx'

theorem tagTasks_snd (ts : List Task) (n : Int) :
    (tagTasks ts n).2 = n + ts.length := by
  induction ts generalizing n with
  | nil => simp [tagTasks]
  | cons t ts ih =>
    simp only [tagTasks, ih, List.length_cons]
    omega

theorem mergeAppend_getD (es ps : List (List Task)) (n : Int) (d : Nat)
    (h1 : d < es.length) (h2 : d < ps.length) :
    (mergeAppend es ps n).getD d []
      = es.getD d []
        ++ (tagTasks (ps.getD d []) (n + ((ps.take d).flatten.length : Int))).1 := by
  induction es generalizing ps n d with
  | nil => cases h1
  | cons e es ih =>
    cases ps with
    | nil => cases h2
    | cons p ps =>
      cases d with
      | zero =>
        simp only [mergeAppend, List.getD_cons_zero, List.take_zero,
          List.flatten_nil, List.length_nil]
        norm_num
      | succ d =>
        simp only [mergeAppend, List.getD_cons_succ, List.take_succ_cons,
          List.flatten_cons, List.length_append]
        rw [ih ps _ d (by simpa using h1) (by simpa using h2), tagTasks_snd]
        congr 3
        push_cast
        ring

/-! ### Helper lemmas for extracting one day of the parser output -/

theorem getD_map_range {α : Type} (f : Nat → α) (N d : Nat) (x : α) (h : d < N) :
    ((List.range N).map f).getD d x = f d := by
  rw [List.getD_eq_getElem?_getD, List.getElem?_map, List.getElem?_range h]
  rfl

theorem parse_getD_texts (text : String) (hne : ¬ text = "") (d : Nat) (hd : d < 8) :
    ((parse_plan_to_tasks text).getD d []).map Task.text
      = match (splitBlocks text.data).find? (matchesDay (d + 1)) with
        | none => []
        | some b => blockLines (d + 1) b := by
  unfold parse_plan_to_tasks
  rw [if_neg hne, numberTasks_getD_text, getD_map_range _ 8 d [] hd]
  cases hf : (splitBlocks text.data).find? (matchesDay (d + 1)) with
  | none => rfl
  | some b =>
    rw [List.map_map]
    have hcomp : (Task.text ∘ fun s => (⟨none, s, false⟩ : Task)) = id := rfl
    rw [hcomp, List.map_id]

theorem mem_getD_mem_flatten {l : List (List Task)} {d : Nat} {t : Task}
    (ht : t ∈ l.getD d []) : t ∈ l.flatten := by
  by_cases h : d < l.length
  · rw [List.getD_eq_getElem?_getD, List.getElem?_eq_getElem h, Option.getD_some] at ht
    exact List.mem_flatten_of_mem (List.getElem_mem h) ht
  · rw [List.getD_eq_getElem?_getD, List.getElem?_eq_none (by omega), Option.getD_none] at ht
    cases ht

theorem parse_done_false (text : String) :
    ∀ t ∈ (parse_plan_to_tasks text).flatten, t.done = false := by
  intro t ht
  unfold parse_plan_to_tasks at ht
  by_cases hne : text = ""
  · rw [if_pos hne] at ht
    rcases List.mem_flatten.1 ht with ⟨l, hl, htl⟩
    rw [List.eq_of_mem_replicate hl] at htl
    cases htl
  · rw [if_neg hne] at ht
    have hmap := numberTasks_flatten_done
      ((List.range 8).map (fun d =>
        match (splitBlocks text.data).find? (matchesDay (d + 1)) with
        | none => []
        | some b => (blockLines (d + 1) b).map (fun s => ⟨none, s, false⟩)))
      0
    have hdone : t.done ∈ (((List.range 8).map (fun d =>
        match (splitBlocks text.data).find? (matchesDay (d + 1)) with
        | none => []
        | some b => (blockLines (d + 1) b).map (fun s => (⟨none, s, false⟩ : Task)))).flatten).map Task.done := by
      rw [← hmap]
      exact List.mem_map_of_mem Task.done ht
    rcases List.mem_map.1 hdone with ⟨s, hs, hdone'⟩
    rcases List.mem_flatten.1 hs with ⟨day, hday, hsday⟩
    rcases List.mem_map.1 hday with ⟨dd, _, hdd⟩
    rw [← hdone']
    subst hdd
    cases hff : (splitBlocks text.data).find? (matchesDay (dd + 1)) with
    | none => rw [hff] at hsday; cases hsday
    | some b =>
      rw [hff] at hsday
      rcases List.mem_map.1 hsday with ⟨str, _, hstr⟩
      rw [← hstr]

theorem parse_text_stripped (text : String) :
    ∀ t ∈ (parse_plan_to_tasks text).flatten, pyStrip t.text = t.text := by
  intro t ht
  unfold parse_plan_to_tasks at ht
  by_cases hne : text = ""
  · rw [if_pos hne] at ht
    rcases List.mem_flatten.1 ht with ⟨l, hl, htl⟩
    rw [List.eq_of_mem_replicate hl] at htl
    cases htl
  · rw [if_neg hne] at ht
    have hmap := numberTasks_flatten_text
      ((List.range 8).map (fun d =>
        match (splitBlocks text.data).find? (matchesDay (d + 1)) with
        | none => []
        | some b => (blockLines (d + 1) b).map (fun s => ⟨none, s, false⟩)))
      0
    have htext : t.text ∈ (((List.range 8).map (fun d =>
        match (splitBlocks text.data).find? (matchesDay (d + 1)) with
        | none => []
        | some b => (blockLines (d + 1) b).map (fun s => (⟨none, s, false⟩ : Task)))).flatten).map Task.text := by
      rw [← hmap]
      exact List.mem_map_of_mem Task.text ht
    rcases List.mem_map.1 htext with ⟨s, hs, htext'⟩
    rcases List.mem_flatten.1 hs with ⟨day, hday, hsday⟩
    rcases List.mem_map.1 hday with ⟨dd, _, hdd⟩
    rw [← htext']
    subst hdd
    cases hff : (splitBlocks text.data).find? (matchesDay (dd + 1)) with
    | none => rw [hff] at hsday; cases hsday
    | some b =>
      rw [hff] at hsday
      rcases List.mem_map.1 hsday with ⟨str, hstrmem, hstr⟩
      rw [← hstr]
      show pyStrip str = str
      unfold blockLines at hstrmem
      rcases List.mem_map.1 hstrmem with ⟨line, _, hline⟩
      rw [← hline]
      show pyStrip ⟨stripList (line.dropWhile bulletChar)⟩ = _
      unfold pyStrip
      exact congrArg String.mk (stripList_idem _)

theorem parse_getD_done (text : String) (d : Nat) :
    ∀ t ∈ (parse_plan_to_tasks text).getD d [], t.done = false :=
  fun t ht => parse_done_false text t (mem_getD_mem_flatten ht)

/-! ### Claim theorems -/

/-- Claim C5: `assign_missing_ids` is idempotent — re-running it on any
structure (in particular on an already fully-assigned one) changes
nothing: `assign_missing_ids (assign_missing_ids s) = assign_missing_ids s`. -/
theorem assign_missing_ids_idempotent (s : List (List Task)) :
    assign_missing_ids (assign_missing_ids s) = assign_missing_ids s :=
  assignGo_noop _ _ (assign_missing_ids_all_some s)

/-- Claim C2: for every input string, `parse_plan_to_tasks` returns exactly 8
day sequences; a day whose marker matches no block is empty, and parsing
is total (no error case exists). -/
theorem parse_always_eight_days (s : String) :
    (parse_plan_to_tasks s).length = 8 ∧
    ∀ d, d < 8 → (splitBlocks s.data).find? (matchesDay (d + 1)) = none →
      (parse_plan_to_tasks s).getD d [] = [] := by
  constructor
  · unfold parse_plan_to_tasks
    by_cases hs : s = ""
    · rw [if_pos hs, List.length_replicate]
    · rw [if_neg hs, numberTasks_length, List.length_map, List.length_range]
  · intro d hd hf
    by_cases hs : s = ""
    · rw [hs] at hf ⊢
      unfold parse_plan_to_tasks
      rw [if_pos rfl, List.getD_eq_getElem?_getD, List.getElem?_replicate, if_pos hd,
        Option.getD_some]
    · have h := parse_getD_texts s hs d hd
      rw [hf] at h
      exact List.map_eq_nil_iff.1 h

/-- Witness for C2 at a concrete marker-free input. -/
theorem parse_always_eight_days_witness :
    (parse_plan_to_tasks ("hello")).length = 8 ∧
    (parse_plan_to_tasks ("hello")).getD 0 [] = [] := by
  obtain ⟨h1, h2⟩ := parse_always_eight_days ("hello")
  exact ⟨h1, h2 0 (by decide) (by decide)⟩

/-- Claim C3 counterexample: on the input "Day 1:- a" the parser itself
assigns id 0 to the produced task — the produced record does not have a
null id, contradicting the claim that parse leaves `id = null` and never
assigns identifiers. -/
theorem parse_assigns_ids_counterexample :
    ((parse_plan_to_tasks ("Day 1:- a")).getD 0 []).map Task.id = [some 0] := by
  decide

/-- Claim C3 amended: every task record produced by `parse_plan_to_tasks` has
`done = false`, but the parser itself assigns the identifiers: the tasks
carry the sequential ids 0,1,2,... in day-major traversal order (none is
null on output). -/
theorem parse_done_false_and_sequential_ids (text : String) :
    (((parse_plan_to_tasks text).flatten).map Task.id
        = (List.range ((parse_plan_to_tasks text).flatten).length).map
            (fun (k : Nat) => some (k : Int)))
    ∧ ∀ t ∈ (parse_plan_to_tasks text).flatten, t.done = false := by
  refine ⟨?_, parse_done_false text⟩
  by_cases hs : text = ""
  · rw [hs]
    decide
  · unfold parse_plan_to_tasks
    rw [if_neg hs, numberTasks_flatten_ids, numberTasks_flatten_length]
    congr 1
    funext k
    norm_num

/-- Claim C8: `normalize_tasks` applied to any day of the parser output
returns exactly the same task records — texts are already stripped, done
is already a boolean, ids pass through. -/
theorem normalize_parse_roundtrip (text : String) (d : Nat) :
    normalize_tasks (((parse_plan_to_tasks text).getD d []).map taskToRaw)
      = (parse_plan_to_tasks text).getD d [] := by
  have key : ∀ t ∈ (parse_plan_to_tasks text).getD d [], pyStrip t.text = t.text :=
    fun t ht => parse_text_stripped text t (mem_getD_mem_flatten ht)
  generalize (parse_plan_to_tasks text).getD d [] = L at key ⊢
  induction L with
  | nil => rfl
  | cons t ts ih =>
    show (⟨t.id, pyStrip t.text, t.done⟩ : Task) :: normalize_tasks (ts.map taskToRaw)
        = t :: ts
    rw [key t (List.mem_cons_self t ts),
      ih (fun x hx => key x (List.mem_cons_of_mem t hx))]

/-- On well-typed entries the fallible model agrees with the total one:
the string "text" values never reach the raising branch of line 301. -/
theorem normalize_tasks_py_well_typed (l : List RawTask) :
    normalize_tasks_py (l.map rawTaskToEntry) = some (normalize_tasks l) := by
  induction l with
  | nil => rfl
  | cons r rest ih =>
    cases r with
    | ofString s => simp [rawTaskToEntry, normalize_tasks_py, normalize_tasks, ih]
    | record i s d => simp [rawTaskToEntry, normalize_tasks_py, normalize_tasks, ih]
    | other => simp [rawTaskToEntry, normalize_tasks_py, normalize_tasks, ih]

theorem normalize_tasks_py_eq_none_iff (l : List RawEntry) :
    normalize_tasks_py l = none ↔ ∃ e ∈ l, badEntry e = true := by
  induction l with
  | nil => simp [normalize_tasks_py]
  | cons e rest ih =>
    cases e with
    | ofString s => simp [normalize_tasks_py, badEntry, ih]
    | record i tx d =>
      cases tx with
      | absent => simp [normalize_tasks_py, badEntry, ih]
      | str s => simp [normalize_tasks_py, badEntry, ih]
      | nonStr => simp [normalize_tasks_py, badEntry]
    | other => simp [normalize_tasks_py, badEntry, ih]

theorem normalize_tasks_py_eq_some (l : List RawEntry)
    (h : ∀ e ∈ l, badEntry e = false) :
    normalize_tasks_py l = some (l.filterMap normOnePy) := by
  induction l with
  | nil => rfl
  | cons e rest ih =>
    have hr : ∀ x ∈ rest, badEntry x = false :=
      fun x hx => h x (List.mem_cons_of_mem e hx)
    cases e with
    | ofString s => simp [normalize_tasks_py, List.filterMap_cons, normOnePy, ih hr]
    | record i tx d =>
      cases tx with
      | absent => simp [normalize_tasks_py, List.filterMap_cons, normOnePy, ih hr]
      | str s => simp [normalize_tasks_py, List.filterMap_cons, normOnePy, ih hr]
      | nonStr =>
        have hbad := h _ (List.mem_cons_self _ rest)
        simp [badEntry] at hbad
    | other => simp [normalize_tasks_py, List.filterMap_cons, normOnePy, ih hr]

theorem filterMap_normOnePy_length (l : List RawEntry)
    (h : ∀ e ∈ l, badEntry e = false) :
    (l.filterMap normOnePy).length = (l.filter keptEntry).length := by
  induction l with
  | nil => rfl
  | cons e rest ih =>
    have hr : ∀ x ∈ rest, badEntry x = false :=
      fun x hx => h x (List.mem_cons_of_mem e hx)
    cases e with
    | ofString s => simp [List.filterMap_cons, List.filter_cons, normOnePy, keptEntry, ih hr]
    | record i tx d =>
      cases tx with
      | absent => simp [List.filterMap_cons, List.filter_cons, normOnePy, keptEntry, ih hr]
      | str s => simp [List.filterMap_cons, List.filter_cons, normOnePy, keptEntry, ih hr]
      | nonStr =>
        have hbad := h _ (List.mem_cons_self _ rest)
        simp [badEntry] at hbad
    | other => simp [List.filterMap_cons, List.filter_cons, normOnePy, keptEntry, ih hr]

/-- Claim C10 counterexample: on a stored dict entry whose "text" value
is present but not a string — e.g. the JSON entry with "text" holding
null — `t.get("text", "").strip()` (src/app.py line 301) reaches
`.strip()` on a non-string and raises AttributeError: normalize does
raise on this dict entry, and no output list is produced. -/
theorem normalize_raises_counterexample :
    normalize_tasks_py [RawEntry.record none PyText.nonStr false] = none := by
  decide

/-- Claim C10 amended: `normalize_tasks` silently discards entries that
are neither strings nor dicts and produces one record per string-or-dict
entry, in order, raising on none of them — provided every dict entry
either lacks the "text" key or carries a string "text" value; it raises
(AttributeError at src/app.py line 301) exactly when some dict entry has
a present non-string "text" value. -/
theorem normalize_raises_iff (l : List RawEntry) :
    (normalize_tasks_py l = none ↔ ∃ e ∈ l, badEntry e = true) ∧
    ((∀ e ∈ l, badEntry e = false) →
      normalize_tasks_py l = some (l.filterMap normOnePy) ∧
      (l.filterMap normOnePy).length = (l.filter keptEntry).length) :=
  ⟨normalize_tasks_py_eq_none_iff l,
    fun h => ⟨normalize_tasks_py_eq_some l h, filterMap_normOnePy_length l h⟩⟩

/-- Witness for the amended claim C10 at a concrete list holding a
string, a non-record entry and a well-typed dict. -/
theorem normalize_raises_iff_witness :
    normalize_tasks_py
        [RawEntry.ofString ("  hi "), RawEntry.other,
          RawEntry.record (some 3) (PyText.str (" t ")) true]
      = some ([RawEntry.ofString ("  hi "), RawEntry.other,
          RawEntry.record (some 3) (PyText.str (" t ")) true].filterMap normOnePy) ∧
    ([RawEntry.ofString ("  hi "), RawEntry.other,
        RawEntry.record (some 3) (PyText.str (" t ")) true].filterMap normOnePy).length
      = ([RawEntry.ofString ("  hi "), RawEntry.other,
          RawEntry.record (some 3) (PyText.str (" t ")) true].filter keptEntry).length :=
  (normalize_raises_iff
    [RawEntry.ofString ("  hi "), RawEntry.other,
      RawEntry.record (some 3) (PyText.str (" t ")) true]).2 (by decide)

/-- Claim C6 counterexample: in "Day 1:\n- a\n-" the final line "-" is
non-blank before stripping, so it is kept, and stripping its decoration
leaves the empty string: the parser produces a task record with empty
text, contradicting the claim that such lines are discarded. -/
theorem parse_empty_text_task_counterexample :
    ((parse_plan_to_tasks ("Day 1:\n- a\n-")).getD 0 []).map Task.text = ["a", ""] ∧
    "" ∈ ((parse_plan_to_tasks ("Day 1:\n- a\n-")).getD 0 []).map Task.text := by
  decide

/-- Claim C6 amended: the texts of the day populated from the first block
matching day `i` are obtained by keeping exactly the lines that are
non-blank BEFORE decoration stripping and stripping from each kept line
the leading bullet/numbering decoration; a kept line whose text becomes
empty only after this stripping still yields a task (with empty text). -/
theorem parse_line_stripping (text : String) (i : Nat) (h1 : 1 ≤ i) (h8 : i ≤ 8)
    (b : List Char)
    (hfind : (splitBlocks text.data).find? (matchesDay i) = some b) :
    ((parse_plan_to_tasks text).getD (i - 1) []).map Task.text
      = ((pySplitlines (stripList (removeDayMarkers i b))).filter
          (fun line => !(stripList line).isEmpty)).map taskLine := by
  have hne : ¬ text = "" := by
    intro h
    rw [h] at hfind
    have hsplit : splitBlocks ("" : String).data = [[]] := rfl
    rw [hsplit] at hfind
    have hm : matchesDay i ([] : List Char) = false := rfl
    simp [List.find?, hm] at hfind
  have hd : i - 1 < 8 := by omega
  have h := parse_getD_texts text hne (i - 1) hd
  rw [Nat.sub_add_cancel h1] at h
  rw [h, hfind]
  rfl

/-- Witness for C6 at a concrete input with a decoration-only line. -/
theorem parse_line_stripping_witness :
    ((parse_plan_to_tasks ("Day 1:\n- task")).getD 0 []).map Task.text
      = ((pySplitlines (stripList (removeDayMarkers 1 ("Day 1:\n- task").data))).filter
          (fun line => !(stripList line).isEmpty)).map taskLine ∧
    ((pySplitlines (stripList (removeDayMarkers 1 ("Day 1:\n- task").data))).filter
          (fun line => !(stripList line).isEmpty)).map taskLine = ["task"] := by
  refine ⟨?_, by decide⟩
  exact parse_line_stripping ("Day 1:\n- task") 1 (by decide) (by decide)
    ("Day 1:\n- task").data (by decide)

/-- Claim C7: the first block (in source order) whose marker matches day `i`
is the one that populates day `i`; matching blocks occurring later in
the split are ignored. -/
theorem parse_first_block_wins (text : String) (i : Nat) (h1 : 1 ≤ i) (h8 : i ≤ 8)
    (pre post : List (List Char)) (b : List Char)
    (hsplit : splitBlocks text.data = pre ++ b :: post)
    (hb : matchesDay i b = true)
    (hpre : ∀ b' ∈ pre, matchesDay i b' = false) :
    ((parse_plan_to_tasks text).getD (i - 1) []).map Task.text = blockLines i b ∧
    ∀ t ∈ (parse_plan_to_tasks text).getD (i - 1) [], t.done = false := by
  have hfind : (splitBlocks text.data).find? (matchesDay i) = some b := by
    rw [hsplit, List.find?_append]
    have hpn : pre.find? (matchesDay i) = none :=
      List.find?_eq_none.2 (fun x hx => by simp [hpre x hx])
    rw [hpn]
    simp [List.find?_cons, hb]
  exact ⟨parse_line_stripping text i h1 h8 b hfind,
    parse_getD_done text (i - 1)⟩

/-- Witness for C7: the duplicated marker "Day 1" keeps only the first
matching block. -/
theorem parse_first_block_wins_witness :
    ((parse_plan_to_tasks ("Day 1: a\nDay 1: b")).getD 0 []).map Task.text
        = blockLines 1 ("Day 1: a\n").data ∧
    blockLines 1 ("Day 1: a\n").data = ["a"] := by
  refine ⟨?_, by decide⟩
  exact (parse_first_block_wins ("Day 1: a\nDay 1: b") 1 (by decide) (by decide)
    [[]] [("Day 1: b").data] ("Day 1: a\n").data (by decide) (by decide)
    (by decide)).1

/-- Claim C9: whenever the plan-generation flow reaches the AI collaborator
(the title is not blank) and the collaborator signals failure, the
failure text is returned unchanged and no project structure is built or
saved (`project = none`); no parsing of the failure text happens. -/
theorem generate_propagates_failure (title desc : String)
    (call : String → Bool × String)
    (ht : ¬ pyStrip title = "")
    (hf : (call (promptFor title desc)).1 = false) :
    generate_8day_plan title desc call
      = ⟨false, (call (promptFor title desc)).2, none⟩ := by
  unfold generate_8day_plan
  rw [if_neg ht]
  simp [hf]

/-- Witness for C9 with a concrete failing collaborator. -/
theorem generate_propagates_failure_witness :
    generate_8day_plan ("T") ("D") (fun _ => (false, "DayBot error: boom"))
      = ⟨false, "DayBot error: boom", none⟩ :=
  generate_propagates_failure ("T") ("D") (fun _ => (false, "DayBot error: boom"))
    (by decide) rfl

/-- Claim C1 counterexample: with tasks of ids 0 and 1, deleting the task of
id 1 (the maximum) and then adding "New" assigns the new task
`max(remaining)+1 = 1` — an id previously assigned (to the deleted
task), contradicting "never an id previously assigned to any task
(including deleted ones)". -/
theorem addTask_reuses_deleted_id :
    deleteTask [[⟨some 0, "a", false⟩, ⟨some 1, "b", false⟩],
        [], [], [], [], [], [], []] 0 1
      = some [[⟨some 0, "a", false⟩], [], [], [], [], [], [], []] ∧
    (addTask [[⟨some 0, "a", false⟩], [], [], [], [], [], [], []] 0 ("New")).getD 0 []
      = [⟨some 0, "a", false⟩, ⟨some 1, "New", false⟩] ∧
    (1 : Int) ∈ collectIds [[⟨some 0, "a", false⟩, ⟨some 1, "b", false⟩],
        [], [], [], [], [], [], []] := by
  decide

/-- Claim C1 amended: `deleteTask` removes exactly the task at the given
position without renumbering any remaining id, and the subsequent
`addTask` (with non-blank text) appends a task whose id is
`max(remaining ids)+1` (or 0 if none remain) — an id distinct from every
id still present in the structure; it may, however, coincide with the id
of a previously deleted task (see the counterexample). -/
theorem deleteTask_addTask_spec (s s' : List (List Task)) (d j : Nat) (txt : String)
    (hdel : deleteTask s d j = some s') (ht : ¬ pyStrip txt = "") :
    s'.getD d [] = (s.getD d []).eraseIdx j ∧
    (∀ k, k ≠ d → s'.getD k [] = s.getD k []) ∧
    (addTask s' d txt).getD d []
        = s'.getD d [] ++ [⟨some (nextId s'), pyStrip txt, false⟩] ∧
    (∀ k, k ≠ d → (addTask s' d txt).getD k [] = s'.getD k []) ∧
    nextId s' ∉ collectIds s' := by
  unfold deleteTask at hdel
  cases hget : s.get? d with
  | none => rw [hget] at hdel; cases hdel
  | some day =>
    rw [hget] at hdel
    have hdel' : (if j < day.length then some (s.set d (day.eraseIdx j)) else none)
        = some s' := hdel
    by_cases hj : j < day.length
    · rw [if_pos hj] at hdel'
      have hs' : s' = s.set d (day.eraseIdx j) := (Option.some.inj hdel').symm
      have hdlt : d < s.length := by
        by_contra hc
        rw [List.get?_eq_none.2 (by omega)] at hget
        cases hget
      have hsd : s.getD d [] = day := by
        rw [List.getD_eq_get?, hget]
        rfl
      have h1 : s'.getD d [] = day.eraseIdx j := by
        rw [hs', List.getD_eq_get?, List.get?_set_eq_of_lt _ hdlt]
        rfl
      have hframe : ∀ k, k ≠ d → s'.getD k [] = s.getD k [] := by
        intro k hk
        rw [hs', List.getD_eq_get?, List.getD_eq_get?,
          List.get?_set_ne _ _ (Ne.symm hk)]
      have hs'len : s'.length = s.length := by rw [hs', List.length_set]
      have hdlt' : d < s'.length := by omega
      refine ⟨by rw [h1, hsd], hframe, ?_, ?_, nextId_not_mem s'⟩
      · unfold addTask
        rw [if_neg ht, List.getD_eq_get?, List.get?_set_eq_of_lt _ hdlt']
        rfl
      · intro k hk
        unfold addTask
        rw [if_neg ht, List.getD_eq_get?, List.get?_set_ne _ _ (Ne.symm hk),
          ← List.getD_eq_get?]
    · rw [if_neg hj] at hdel'; cases hdel'

/-- Witness for the amended claim of C1 at the concrete delete-then-add run. -/
theorem deleteTask_addTask_spec_witness :
    ([[⟨some 0, "a", false⟩], [], [], [], [], [], [], []] :
        List (List Task)).getD 0 []
      = (([[⟨some 0, "a", false⟩, ⟨some 1, "b", false⟩],
            [], [], [], [], [], [], []] : List (List Task)).getD 0 []).eraseIdx 1 ∧
    (addTask [[⟨some 0, "a", false⟩], [], [], [], [], [], [], []] 0 ("New")).getD 0 []
      = ([[⟨some 0, "a", false⟩], [], [], [], [], [], [], []] :
          List (List Task)).getD 0 []
        ++ [⟨some (nextId [[⟨some 0, "a", false⟩], [], [], [], [], [], [], []]),
              pyStrip ("New"), false⟩] ∧
    nextId [[⟨some 0, "a", false⟩], [], [], [], [], [], [], []]
      ∉ collectIds [[⟨some 0, "a", false⟩], [], [], [], [], [], [], []] := by
  have h := deleteTask_addTask_spec
    [[⟨some 0, "a", false⟩, ⟨some 1, "b", false⟩], [], [], [], [], [], [], []]
    [[⟨some 0, "a", false⟩], [], [], [], [], [], [], []]
    0 1 ("New") (by decide) (by decide)
  exact ⟨h.1, h.2.2.1, h.2.2.2.2⟩

/-- Example existing structure for the merge witness. -/
def exMergeExisting : List (List Task) :=
  [⟨some 0, "x", true⟩] :: List.replicate 7 []

/-- Example parsed structure for the merge witness. -/
def exMergeParsed : List (List Task) :=
  [⟨none, "y", false⟩] :: List.replicate 7 []

/-- Claim C4 counterexample: merging an existing structure whose task has a
null id changes the id of that task (the merge first runs
`assign_missing_ids` on the existing structure), contradicting "ids of
pre-existing tasks are unchanged". -/
theorem merge_mutates_null_id_counterexample :
    ((mergeParsedPlan ([[⟨none, "a", false⟩], [], [], [], [], [], [], []])
        (List.replicate 8 [])).getD 0 []).map Task.id = [some 0] ∧
    (([[⟨none, "a", false⟩], [], [], [], [], [], [], []] :
        List (List Task)).getD 0 []).map Task.id = [none] := by
  decide

/-- Claim C4 amended: `mergeParsedPlan` first runs `assign_missing_ids` over
the existing structure — pre-existing tasks keep their position, text,
done-flag and any already-assigned id, while tasks with a null id
receive a fresh id — and then strictly appends the tasks of the parsed day
after the (re-assigned) existing tasks of the corresponding day, with
the parsed texts in order, `done = false`, and fresh sequential ids. -/
theorem mergeParsedPlan_spec (e p : List (List Task))
    (h8 : e.length = 8) (hp : p.length = 8) (d : Nat) (hd : d < 8) :
    ((mergeParsedPlan e p).getD d []
        = (assign_missing_ids e).getD d []
          ++ (tagTasks (p.getD d [])
                (nextId (assign_missing_ids e)
                  + ((p.take d).flatten.length : Int))).1) ∧
    ((tagTasks (p.getD d [])
        (nextId (assign_missing_ids e)
          + ((p.take d).flatten.length : Int))).1).map Task.text
      = (p.getD d []).map Task.text ∧
    (∀ t ∈ (tagTasks (p.getD d [])
        (nextId (assign_missing_ids e)
          + ((p.take d).flatten.length : Int))).1, t.done = false) ∧
    List.Forall₂ keepsTask ((assign_missing_ids e).getD d []) (e.getD d []) := by
  have hlen : d < (assign_missing_ids e).length := by
    rw [assign_missing_ids_length]; omega
  have hlp : d < p.length := by omega
  exact ⟨mergeAppend_getD _ _ _ d hlen hlp,
    tagTasks_fst_text _ _, tagTasks_fst_done _ _, assignGo_getD_forall2 e _ d⟩

/-- Witness for the amended claim of C4 at concrete 8-day structures. -/
theorem mergeParsedPlan_spec_witness :
    ((mergeParsedPlan exMergeExisting exMergeParsed).getD 0 []
        = (assign_missing_ids exMergeExisting).getD 0 []
          ++ (tagTasks (exMergeParsed.getD 0 [])
                (nextId (assign_missing_ids exMergeExisting)
                  + (((exMergeParsed.take 0).flatten.length : Nat) : Int))).1) ∧
    ((tagTasks (exMergeParsed.getD 0 [])
        (nextId (assign_missing_ids exMergeExisting)
          + (((exMergeParsed.take 0).flatten.length : Nat) : Int))).1).map Task.text
      = (exMergeParsed.getD 0 []).map Task.text ∧
    List.Forall₂ keepsTask ((assign_missing_ids exMergeExisting).getD 0 [])
      (exMergeExisting.getD 0 []) := by
  have h := mergeParsedPlan_spec exMergeExisting exMergeParsed
    (by decide) (by decide) 0 (by decide)
  exact ⟨h.1, h.2.1, h.2.2.2⟩

end DayByDay
